import Mathlib

/-!
Verification development for the cloud transfer module (internal/cloud/s3.go).

Strings are embedded as lists of characters (`GoStr`); the filesystem is an
explicit association list from paths to nodes, extended with a set of paths on
which `stat` fails with a non-NotExist error.  Pure path manipulation
(strings.TrimPrefix, strings.FieldsFunc, filepath.Ext, filepath.Clean,
filepath.Join, filepath.Dir, strings.ToLower) is translated function by
function from the Go standard library semantics used by the source.  The
concurrent orchestration is embedded by explicit state passing: the walker and
the extractor goroutines become functions from inputs to the value each one
sends on its one-shot error channel, and the statements executed on the calling
goroutine are recorded as explicit step lists where the claim is about which
statements run concurrently.
-/

deriving instance DecidableEq for Except

/-- Go strings, embedded as lists of characters. -/
abbrev GoStr := List Char

/-- Error values the module can produce.  Remote put/get failures are abstract
(indexed by a number); the others correspond to the fmt.Errorf sites and
io.EOF. -/
inductive Err where
  | unknownExtension (key : GoStr)
  | unexpectedPath (path : GoStr)
  | incorrectPath
  | mkdirFailed (path : GoStr)
  | createFailed (path : GoStr)
  | eof
  | putErr (n : Nat)
  | getErr (n : Nat)
deriving DecidableEq, Repr

/-- strings.TrimPrefix: drop `pre` from the front of `s` when it is a prefix,
otherwise return `s` unchanged (s3.go line 151). -/
def trimPrefixOf (s pre : GoStr) : GoStr :=
  if pre.isPrefixOf s then s.drop pre.length else s

/-- filepath.ToSlash: the target OS path separator is '/', so this is the
identity (s3.go line 155). -/
def toSlash (s : GoStr) : GoStr := s

/-- strings.ToLower restricted to the ASCII range used by extension tags
(s3.go lines 104 and 222). -/
def toLowerStr (s : GoStr) : GoStr := s.map Char.toLower

/-- Helper for filepath.Ext: scan the reversed path, stopping at a path
separator; on the first '.' return the suffix from that dot. -/
def extFrom : List Char → List Char → List Char
  | [], _ => []
  | c :: rest, acc =>
    if c = '/' then []
    else if c = '.' then '.' :: acc
    else extFrom rest (c :: acc)

/-- filepath.Ext: the suffix beginning at the final dot in the final path
element, empty if there is none. -/
def filepathExt (p : GoStr) : GoStr := extFrom p.reverse []

/-- Split on '/', keeping empty fields (used by the Clean embedding). -/
def splitOnSlash (s : GoStr) : List GoStr :=
  s.foldr
    (fun c acc =>
      if c = '/' then [] :: acc
      else
        match acc with
        | [] => [[c]]
        | a :: as => (c :: a) :: as)
    [[]]

/-- One step of filepath.Clean's segment processing: skip empty and "."
segments, resolve ".." against the stack, push everything else. -/
def cleanStep (rooted : Bool) (stack : List GoStr) (seg : GoStr) : List GoStr :=
  if seg = [] ∨ seg = ['.'] then stack
  else if seg = ['.', '.'] then
    match stack with
    | [] => if rooted then [] else [['.', '.']]
    | top :: rest => if top = ['.', '.'] then ['.', '.'] :: top :: rest else rest
  else seg :: stack

/-- filepath.Clean for '/'-separated paths: collapse repeated separators,
eliminate "." and resolvable "..", keep rootedness, return "." for an empty
result. -/
def goClean (p : GoStr) : GoStr :=
  let rooted := p.head? = some '/'
  let segs := ((splitOnSlash p).foldl (cleanStep rooted) []).reverse
  let body := (segs.intersperse ['/']).flatten
  if rooted then '/' :: body
  else if body = [] then ['.']
  else body

/-- filepath.Join: join the non-empty elements with '/' and Clean the result;
all-empty input yields the empty path. -/
def goJoin (elems : List GoStr) : GoStr :=
  let ne := elems.filter (fun e => e ≠ [])
  if ne = [] then [] else goClean ((ne.intersperse ['/']).flatten)

/-- filepath.Dir: everything up to and including the final '/', Cleaned;
"." when there is no separator. -/
def goDir (p : GoStr) : GoStr :=
  goClean ((p.reverse.dropWhile (fun c => c ≠ '/')).reverse)

/-- Helper for strings.FieldsFunc with the separator predicate `c == '/'`
(s3.go lines 314-317): scan the characters, accumulating the current field,
emitting it when a separator run starts; empty fields are never emitted. -/
def fieldsSlashAux : List Char → List Char → List GoStr
  | [], acc => if acc = [] then [] else [acc.reverse]
  | c :: rest, acc =>
    if c = '/' then
      if acc = [] then fieldsSlashAux rest []
      else acc.reverse :: fieldsSlashAux rest []
    else fieldsSlashAux rest (c :: acc)

/-- strings.FieldsFunc(name, c == '/'): the maximal runs of non-separator
characters, in order (s3.go line 317).  The source deliberately uses
FieldsFunc, not strings.Split, so consecutive separators produce no empty
fields. -/
def fieldsSlash (s : GoStr) : List GoStr := fieldsSlashAux s []

/-- A filesystem node: a directory with permission bits, or a file with
permission bits and byte content. -/
inductive FNode where
  | dir (perm : Nat)
  | file (perm : Nat) (content : List Nat)
deriving DecidableEq, Repr

/-- The local filesystem: an association list from paths to nodes, plus the
set of paths on which os.Stat fails with an error other than ErrNotExist
(for example a permission error on a parent directory). -/
structure FS where
  entries : List (GoStr × FNode)
  denied : List GoStr
deriving DecidableEq, Repr

/-- Look a path up in the filesystem. -/
def FS.lookup (fs : FS) (p : GoStr) : Option FNode :=
  (fs.entries.find? (fun e => e.1 == p)).map (fun e => e.2)

/-- Result of os.Stat: the node, a not-exist error, or some other error. -/
inductive StatRes where
  | ok (n : FNode)
  | errNotExist
  | errOther
deriving DecidableEq, Repr

/-- os.Stat on the modelled filesystem. -/
def FS.stat (fs : FS) (p : GoStr) : StatRes :=
  if p ∈ fs.denied then .errOther
  else
    match fs.lookup p with
    | some n => .ok n
    | none => .errNotExist

/-- Exists (s3.go lines 33-39): stat the path; on error return the negation of
errors.Is(err, os.ErrNotExist); on success return true. -/
def fileExists (fs : FS) (p : GoStr) : Bool :=
  match fs.stat p with
  | .ok _ => true
  | .errNotExist => false
  | .errOther => true

/-- Whether `p` denotes an existing directory ("." and "/" always exist). -/
def FS.hasDir (fs : FS) (p : GoStr) : Bool :=
  if p = ['.'] ∨ p = ['/'] then true
  else
    match fs.lookup p with
    | some (.dir _) => true
    | _ => false

/-- os.Mkdir(p, perm): fails if `p` already exists or its parent directory is
missing; otherwise records the new directory with the given permission bits
(s3.go line 330). -/
def osMkdir (fs : FS) (p : GoStr) (perm : Nat) : Except Err FS :=
  if (fs.lookup p).isSome then .error (.mkdirFailed p)
  else if fs.hasDir (goDir p) then .ok ⟨(p, .dir perm) :: fs.entries, fs.denied⟩
  else .error (.mkdirFailed p)

/-- os.Create(p) followed by io.Copy of the entry content (s3.go lines
335-342): fails if `p` is an existing directory or its parent is missing;
truncating an existing file keeps its old permission bits; a new file is
created with mode 0666. -/
def osCreate (fs : FS) (p : GoStr) (content : List Nat) : Except Err FS :=
  match fs.lookup p with
  | some (.dir _) => .error (.createFailed p)
  | some (.file oldPerm _) =>
      .ok ⟨(p, .file oldPerm content) :: fs.entries.filter (fun e => e.1 ≠ p), fs.denied⟩
  | none =>
      if fs.hasDir (goDir p) then .ok ⟨(p, .file 0o666 content) :: fs.entries, fs.denied⟩
      else .error (.createFailed p)

/-- An archive entry as the tar codec presents it: name, directory flag,
permission bits, byte content (empty for directories). -/
structure ArchiveFile where
  name : GoStr
  isDir : Bool
  perm : Nat
  content : List Nat
deriving DecidableEq, Repr

/-- The destination-path computation of uncompressFile (s3.go lines 313-325):
split the entry name into fields on '/', fail with "incorrect path" when no
field remains, otherwise replace the first field with the local root directory
and join. -/
def uncompressDest (localRootDirectory : GoStr) (name : GoStr) : Except Err GoStr :=
  match fieldsSlash name with
  | [] => .error .incorrectPath
  | _ :: rest => .ok (goJoin (localRootDirectory :: rest))

/-- uncompressFile (s3.go lines 309-345): compute the destination path; for a
directory entry create it only when Exists reports it absent, preserving the
recorded permission bits; for a file entry create/truncate the destination and
copy the content. -/
def uncompressFile (localRootDirectory : GoStr) (fs : FS) (f : ArchiveFile) : Except Err FS :=
  match uncompressDest localRootDirectory f.name with
  | .error e => .error e
  | .ok localFile =>
    if f.isDir then
      if fileExists fs localFile then .ok fs
      else osMkdir fs localFile f.perm
    else osCreate fs localFile f.content

/-- A local directory tree, the input of the upload walker. -/
inductive DirTree where
  | file (name : GoStr) (perm : Nat) (content : List Nat)
  | dir (name : GoStr) (perm : Nat) (children : List DirTree)

/-- Name of a tree node. -/
def DirTree.name : DirTree → GoStr
  | .file n _ _ => n
  | .dir n _ _ => n

/-- Whether a tree node is a directory. -/
def DirTree.isDir : DirTree → Bool
  | .file _ _ _ => false
  | .dir _ _ _ => true

/-- Permission bits of a tree node. -/
def DirTree.perm : DirTree → Nat
  | .file _ p _ => p
  | .dir _ p _ => p

/-- Content of a tree node (empty for directories). -/
def DirTree.contentOf : DirTree → List Nat
  | .file _ _ c => c
  | .dir _ _ _ => []

mutual
/-- filepath.Walk visit order (s3.go line 140): the node itself first, then its
children pre-order; a child's path is filepath.Join(parent path, child name). -/
def walkList (path : GoStr) : DirTree → List (GoStr × DirTree)
  | .file n p c => [(path, .file n p c)]
  | .dir n p cs => (path, .dir n p cs) :: walkChildren path cs

/-- Walk the children of a directory in order. -/
def walkChildren (path : GoStr) : List DirTree → List (GoStr × DirTree)
  | [] => []
  | c :: rest => walkList (goJoin [path, c.name]) c ++ walkChildren path rest
end

/-- The walker callback's entry-name computation (s3.go lines 151-158): strip
the walked root from the node path with strings.TrimPrefix; an empty result is
the "unexpected path" error; otherwise normalize separators with ToSlash and
prepend '/' when the first character is not already '/'. -/
def entryName (localDirectoy path : GoStr) : Except Err GoStr :=
  let customName := trimPrefixOf path localDirectoy
  if customName.length = 0 then .error (.unexpectedPath path)
  else
    let customName := toSlash customName
    if customName.head? ≠ some '/' then .ok ('/' :: customName)
    else .ok customName

/-- The walker goroutine over a visit list (s3.go lines 139-172): entries
written to the archive before the first error, paired with the first error if
one occurred (filepath.Walk aborts at the first callback error). -/
def walkProduced (localDirectoy : GoStr) : List (GoStr × DirTree) → List ArchiveFile × Option Err
  | [] => ([], none)
  | (p, t) :: rest =>
    match entryName localDirectoy p with
    | .error e => ([], some e)
    | .ok nm =>
      let r := walkProduced localDirectoy rest
      (⟨nm, t.isDir, t.perm, t.contentOf⟩ :: r.1, r.2)

/-- The terminal outcome of the upload walker stage on a tree: the full entry
list on success, the first callback error otherwise. -/
def runWalk (localDirectoy : GoStr) (t : DirTree) : Except Err (List ArchiveFile) :=
  match walkProduced localDirectoy (walkList localDirectoy t) with
  | (es, none) => .ok es
  | (_, some e) => .error e

/-- The two compression codecs the switch recognizes. -/
inductive Codec where
  | xz
  | zstd
deriving DecidableEq, Repr

/-- The extension switch shared by UploadCompressedDirectory and
DownloadCompressedDirectory (s3.go lines 104-135 and 222-252): lower-case the
filepath.Ext of the key; ".xz" and ".zstd" select a codec, anything else is
the "unknown extension" error. -/
def selectCodec (s3FilePath : GoStr) : Except Err Codec :=
  let extension := toLowerStr (filepathExt s3FilePath)
  if extension = ['.', 'x', 'z'] then .ok .xz
  else if extension = ['.', 'z', 's', 't', 'd'] then .ok .zstd
  else .error (.unknownExtension s3FilePath)

/-- The download consumer goroutine's loop (s3.go lines 256-268), written
exactly as the source has it: the loop body's `f, err := compression.Read()`
declares a new `err` that shadows the outer `var err error`, and
`err = uncompressFile(...)` assigns that inner variable, so both `break`s leave
the outer variable (`outerErr` here) untouched.  The stream is the list of
entries the tar reader yields before its terminal error. -/
def consumerLoop (root : GoStr) (outerErr : Option Err) :
    FS → List ArchiveFile → Err → Option Err × FS
  | fs, [], _ => (outerErr, fs)
  | fs, f :: rest, terminal =>
    match uncompressFile root fs f with
    | .error _ => (outerErr, fs)
    | .ok fs2 => consumerLoop root outerErr fs2 rest terminal

/-- The value the consumer goroutine sends on errorChannel together with the
final filesystem (s3.go lines 256-276): run the loop with the outer error
starting at nil, then map io.EOF to nil before sending. -/
def downloadConsumerResult (root : GoStr) (fs : FS) (stream : List ArchiveFile)
    (terminal : Err) : Option Err × FS :=
  let r := consumerLoop root none fs stream terminal
  (if r.1 = some .eof then none else r.1, r.2)

/-- Modelled from the spec: the consumer behavior claim C2 describes — the
first error from reading or extracting an entry is reported, and only the
end-of-archive signal io.EOF maps to success.  Stated for comparison with
`downloadConsumerResult`, which is translated from the source. -/
def consumerSpec (root : GoStr) : FS → List ArchiveFile → Err → Option Err × FS
  | fs, [], terminal => (if terminal = .eof then none else some terminal, fs)
  | fs, f :: rest, terminal =>
    match uncompressFile root fs f with
    | .error e => (some e, fs)
    | .ok fs2 => consumerSpec root fs2 rest terminal

/-- Outcome of a DownloadCompressedDirectory call: the returned error and the
final local filesystem. -/
structure DownloadRun where
  result : Option Err
  fs : FS
deriving DecidableEq, Repr

/-- DownloadCompressedDirectory (s3.go lines 219-299) as a function of the key,
the target root, the initial filesystem, the entry stream the archive decodes
to, the tar reader's terminal signal, and the remote get outcome.  A bad
extension returns before the goroutine and the downloader start; a get error is
returned directly (the consumer has still processed whatever arrived); on get
success the consumer's channel value is returned. -/
def downloadCompressedDirectory (s3FilePath root : GoStr) (fs : FS)
    (stream : List ArchiveFile) (terminal : Err) (getResult : Option Err) : DownloadRun :=
  match selectCodec s3FilePath with
  | .error e => ⟨some e, fs⟩
  | .ok _ =>
    let r := downloadConsumerResult root fs stream terminal
    match getResult with
    | some ge => ⟨some ge, r.2⟩
    | none => ⟨r.1, r.2⟩

/-- The tail of UploadCompressedDirectory (s3.go lines 182-194): the put, the
early `return err` on put failure, then `in.Close()` and the errorChannel
receive.  The flags record whether the pipe read end was closed and whether
the walker stage's error was drained. -/
structure UploadFinish where
  result : Option Err
  closedPipeReader : Bool
  drainedStageError : Bool
deriving DecidableEq, Repr

/-- Lines 182-194 of s3.go: on put failure the function returns the put error
immediately, before in.Close() and before receiving from errorChannel; only on
put success is the pipe reader closed and the stage error awaited and
returned. -/
def uploadFinish (putResult : Option Err) (stageErr : Option Err) : UploadFinish :=
  match putResult with
  | some e => ⟨some e, false, false⟩
  | none => ⟨stageErr, true, true⟩

/-- Outcome of an UploadCompressedDirectory call: the returned error, the
archive entries offered to the uploader, and the two shutdown flags. -/
structure UploadRun where
  result : Option Err
  uploaded : List ArchiveFile
  closedPipeReader : Bool
  drainedStageError : Bool
deriving DecidableEq, Repr

/-- UploadCompressedDirectory (s3.go lines 101-195) as a function of the local
directory, the key, the tree at that directory, and the remote put outcome.
A bad extension returns before the walker goroutine and the uploader start, so
nothing is written anywhere; otherwise the walker stage produces entries until
its first error and the ending follows `uploadFinish`. -/
def uploadCompressedDirectory (localDirectoy s3FilePath : GoStr) (t : DirTree)
    (putResult : Option Err) : UploadRun :=
  match selectCodec s3FilePath with
  | .error e => ⟨some e, [], false, false⟩
  | .ok _ =>
    let r := walkProduced localDirectoy (walkList localDirectoy t)
    let fin := uploadFinish putResult r.2
    ⟨fin.result, r.1, fin.closedPipeReader, fin.drainedStageError⟩

/-- Statements of the transfer functions relevant to pipeline wiring. -/
inductive PipelineStep where
  | newPipe
  | createTarTo
  | newZstdWriter
  | newZstdReader
  | goCopy
  | syncCopy
  | openTarFrom
  | startStage
  | remotePut
  | remoteGet
deriving DecidableEq, Repr

/-- The statements of UploadCompressedDirectory's ".zstd" path executed on the
calling goroutine, in source order (s3.go lines 102-187): both pipes, the tar
writer, the zstd writer, the `go func() { io.Copy(enc, inZstd) }()` spawn, the
walker goroutine spawn, and the put. -/
def uploadZstdCallerSteps : List PipelineStep :=
  [.newPipe, .newPipe, .createTarTo, .newZstdWriter, .goCopy, .startStage, .remotePut]

/-- The statements of DownloadCompressedDirectory's ".zstd" path executed on
the calling goroutine, in source order (s3.go lines 220-290): both pipes, the
zstd reader, the bridge `io.Copy(outZstd, d)` run inline with no `go`, the tar
open, the consumer goroutine spawn, and the get. -/
def downloadZstdCallerSteps : List PipelineStep :=
  [.newPipe, .newPipe, .newZstdReader, .syncCopy, .openTarFrom, .startStage, .remoteGet]

/-- The session's cancellation-function slot: either the harmless no-op or the
cancel function of transfer `id`. -/
inductive CancelSlot where
  | noop
  | active (id : Nat)
deriving DecidableEq, Repr

/-- NewAWSSession (s3.go line 63) initializes the slot to `func() {}`. -/
def newSessionSlot : CancelSlot := .noop

/-- Cancel (s3.go lines 301-307): under the lock, call the stored function
(calling either the no-op or a context cancel is safe) and reset the slot to
the no-op. -/
def cancelOp : CancelSlot → CancelSlot
  | _ => .noop

/-- The lock-guarded `a.cancel = cancel` every transfer performs on start
(s3.go lines 67-70, 85-88, 176-179, 205-208, 281-284): the previous function
is replaced unconditionally. -/
def beginTransfer (id : Nat) (_s : CancelSlot) : CancelSlot := .active id

/-- Slot effect of one complete transfer operation: an early return before the
slot assignment (bad extension, codec setup failure, os.Open failure) leaves
the slot untouched; otherwise the slot is set and the deferred Cancel restores
the no-op on completion. -/
def runTransfer (id : Nat) (earlyReturn : Bool) (s : CancelSlot) : CancelSlot :=
  if earlyReturn then s else cancelOp (beginTransfer id s)

/-- No two consecutive '/' characters occur in the string. -/
def noDoubleSlash : GoStr → Bool
  | [] => true
  | [_] => true
  | a :: b :: rest => !(a == '/' && b == '/') && noDoubleSlash (b :: rest)

/-- Every field emitted by the FieldsFunc scan is non-empty: the accumulator is
only turned into a field when it is non-empty. -/
theorem fieldsSlashAux_ne_nil (s : List Char) :
    ∀ (acc : List Char), ∀ p ∈ fieldsSlashAux s acc, p ≠ [] := by
  induction s with
  | nil =>
    intro acc p hp
    by_cases h : acc = []
    · simp [fieldsSlashAux, h] at hp
    · simp [fieldsSlashAux, h] at hp
      subst hp
      simpa using h
  | cons c rest ih =>
    intro acc p hp
    by_cases hslash : c = '/'
    · by_cases h : acc = []
      · simp [fieldsSlashAux, hslash, h] at hp
        exact ih [] p hp
      · simp [fieldsSlashAux, hslash, h] at hp
        rcases hp with hp | hp
        · subst hp; simpa using h
        · exact ih [] p hp
    · simp [fieldsSlashAux, hslash] at hp
      exact ih (c :: acc) p hp

/-- The value the download consumer loop leaves in the outer error variable is
whatever it started with: both exits of the loop go through a `break` that only
ever assigned the shadowed inner variable. -/
theorem consumerLoop_fst (root : GoStr) (o : Option Err) (fs : FS)
    (stream : List ArchiveFile) (terminal : Err) :
    (consumerLoop root o fs stream terminal).1 = o := by
  induction stream generalizing fs with
  | nil => rfl
  | cons f rest ih =>
    simp only [consumerLoop]
    cases uncompressFile root fs f with
    | error e => rfl
    | ok fs2 => exact ih fs2

/-- C1: the round-trip property fails on the code.  In the concrete scenario —
uploading the directory `root` containing `a.txt` (content "hi", bytes 104 105)
and the empty directory `sub` to key `backup.zstd` — the walker's first visit
is the root node itself, whose path strips to the empty string, so the upload
stage terminates with the "unexpected path" error instead of producing the
archive.  Moreover the entry names the walker would produce for children strip
the root entirely (for example `/a.txt`), while the extractor replaces the
FIRST name segment with the target root, so `/a.txt` would extract to the path
`out` itself, not `out/a.txt`. -/
theorem scenario_roundTrip_fails :
    runWalk "root".toList
        (.dir "root".toList 0o755
          [.file "a.txt".toList 0o644 [104, 105], .dir "sub".toList 0o755 []]) =
      .error (.unexpectedPath "root".toList) ∧
    uploadCompressedDirectory "root".toList "backup.zstd".toList
        (.dir "root".toList 0o755
          [.file "a.txt".toList 0o644 [104, 105], .dir "sub".toList 0o755 []]) none =
      ⟨some (.unexpectedPath "root".toList), [], true, true⟩ ∧
    entryName "root".toList "root/a.txt".toList = .ok "/a.txt".toList ∧
    uncompressDest "out".toList "/a.txt".toList = .ok "out".toList := by decide

/-- C2: false on the code.  The consumer goroutine's loop declares
`f, err := compression.Read()`, shadowing the outer `var err error`, so the
value sent on errorChannel is always nil (first conjunct, for every stream and
every terminal signal): read and extraction errors are swallowed, and the
io.EOF check is dead code.  Concretely, a stream whose single entry has an
empty name makes uncompressFile fail with "incorrect path", yet the download
with a successful get returns nil; the behavior the claim describes
(`consumerSpec`) would return that error. -/
theorem download_swallows_stage_error :
    (∀ (root : GoStr) (fs : FS) (stream : List ArchiveFile) (terminal : Err),
        (downloadConsumerResult root fs stream terminal).1 = none) ∧
    uncompressFile "out".toList ⟨[("out".toList, .dir 0o755)], []⟩ ⟨[], true, 0o755, []⟩ =
      .error .incorrectPath ∧
    downloadCompressedDirectory "backup.zstd".toList "out".toList
        ⟨[("out".toList, .dir 0o755)], []⟩ [⟨[], true, 0o755, []⟩] .eof none =
      ⟨none, ⟨[("out".toList, .dir 0o755)], []⟩⟩ ∧
    consumerSpec "out".toList ⟨[("out".toList, .dir 0o755)], []⟩ [⟨[], true, 0o755, []⟩] .eof =
      (some .incorrectPath, ⟨[("out".toList, .dir 0o755)], []⟩) := by
  refine ⟨?_, by decide, by decide, by decide⟩
  intro root fs stream terminal
  simp [downloadConsumerResult, consumerLoop_fst]

/-- C3: false on the code for the download direction.  In the .zstd path of
UploadCompressedDirectory the zstd/tar bridge copy is spawned with `go`
(`goCopy`), but in DownloadCompressedDirectory the bridge `io.Copy(outZstd, d)`
runs on the calling goroutine (`syncCopy`), before the tar reader is opened and
before the remote get — which is the only writer of the pipe the copy reads
from — is started. -/
theorem download_zstd_bridge_not_concurrent :
    PipelineStep.goCopy ∈ uploadZstdCallerSteps ∧
    PipelineStep.goCopy ∉ downloadZstdCallerSteps ∧
    PipelineStep.syncCopy ∈ downloadZstdCallerSteps ∧
    List.indexOf PipelineStep.syncCopy downloadZstdCallerSteps <
      List.indexOf PipelineStep.remoteGet downloadZstdCallerSteps := by decide

/-- C4: for every destination key whose lower-cased filepath.Ext is neither
".xz" nor ".zstd", both UploadCompressedDirectory and
DownloadCompressedDirectory fail with the "unknown extension" error before any
I/O: nothing is offered to the uploader, the shutdown flags never fire, and the
local filesystem is returned unchanged.  The tag match is case-insensitive: a
key ending in ".ZsTd" selects the Zstandard codec. -/
theorem unknown_extension_fails_fast (localDirectoy s3FilePath root : GoStr) (t : DirTree)
    (putResult getResult : Option Err) (fs : FS) (stream : List ArchiveFile) (terminal : Err)
    (hxz : toLowerStr (filepathExt s3FilePath) ≠ ['.', 'x', 'z'])
    (hzstd : toLowerStr (filepathExt s3FilePath) ≠ ['.', 'z', 's', 't', 'd']) :
    uploadCompressedDirectory localDirectoy s3FilePath t putResult =
      ⟨some (.unknownExtension s3FilePath), [], false, false⟩ ∧
    downloadCompressedDirectory s3FilePath root fs stream terminal getResult =
      ⟨some (.unknownExtension s3FilePath), fs⟩ ∧
    selectCodec "x.ZsTd".toList = .ok .zstd := by
  have hsel : selectCodec s3FilePath = .error (.unknownExtension s3FilePath) := by
    simp only [selectCodec]
    rw [if_neg hxz, if_neg hzstd]
  refine ⟨?_, ?_, by decide⟩
  · simp only [uploadCompressedDirectory, hsel]
  · simp only [downloadCompressedDirectory, hsel]

/-- Witness for C4 at the concrete key "a.tar.gz" (extension ".gz"). -/
theorem unknown_extension_fails_fast_witness :
    uploadCompressedDirectory "root".toList "a.tar.gz".toList
        (.dir "root".toList 0o755 []) none =
      ⟨some (.unknownExtension "a.tar.gz".toList), [], false, false⟩ ∧
    downloadCompressedDirectory "a.tar.gz".toList "out".toList ⟨[], []⟩ [] .eof none =
      ⟨some (.unknownExtension "a.tar.gz".toList), ⟨[], []⟩⟩ :=
  ⟨(unknown_extension_fails_fast "root".toList "a.tar.gz".toList "out".toList
      (.dir "root".toList 0o755 []) none none ⟨[], []⟩ [] .eof (by decide) (by decide)).1,
   (unknown_extension_fails_fast "root".toList "a.tar.gz".toList "out".toList
      (.dir "root".toList 0o755 []) none none ⟨[], []⟩ [] .eof (by decide) (by decide)).2.1⟩

/-- C5: for every node the walker visits, if stripping the walked root from the
node's path yields the empty string the callback fails with the "unexpected
path" error; otherwise the produced entry name is the stripped path (separators
already canonical) with exactly one leading '/', hence never empty.  The
hypothesis that the stripped path has no consecutive separators holds for every
path filepath.Walk produces, since child paths are built with filepath.Join. -/
theorem walker_entryName_spec (root path : GoStr)
    (hnd : noDoubleSlash (trimPrefixOf path root) = true) :
    (trimPrefixOf path root = [] → entryName root path = .error (.unexpectedPath path)) ∧
    (trimPrefixOf path root ≠ [] →
      ∃ nm, entryName root path = .ok nm ∧ nm ≠ [] ∧ nm.head? = some '/' ∧
        nm.tail.head? ≠ some '/' ∧
        (nm = trimPrefixOf path root ∨ nm = '/' :: trimPrefixOf path root)) := by
  constructor
  · intro h
    simp [entryName, h]
  · intro h
    cases hc : trimPrefixOf path root with
    | nil => exact absurd hc h
    | cons a rest =>
      rw [hc] at hnd
      by_cases ha : a = '/'
      · subst ha
        refine ⟨'/' :: rest, ?_, by simp, rfl, ?_, Or.inl rfl⟩
        · simp [entryName, hc, toSlash]
        · cases rest with
          | nil => simp
          | cons b r =>
            simp only [noDoubleSlash, Bool.and_eq_true, Bool.not_eq_true'] at hnd
            simp only [List.tail_cons, List.head?_cons, ne_eq, Option.some.injEq]
            intro hb
            rw [hb] at hnd
            simp at hnd
      · refine ⟨'/' :: a :: rest, ?_, by simp, rfl, by simpa using ha, Or.inr rfl⟩
        simp [entryName, hc, toSlash, ha]

/-- Witness for C5 at root "root" and path "root/a.txt": the stripped path is
"/a.txt" and the entry name is "/a.txt" with exactly one leading slash. -/
theorem walker_entryName_spec_witness :
    ∃ nm, entryName "root".toList "root/a.txt".toList = .ok nm ∧ nm ≠ [] ∧
      nm.head? = some '/' ∧ nm.tail.head? ≠ some '/' ∧
      (nm = trimPrefixOf "root/a.txt".toList "root".toList ∨
        nm = '/' :: trimPrefixOf "root/a.txt".toList "root".toList) :=
  (walker_entryName_spec "root".toList "root/a.txt".toList (by decide)).2 (by decide)

/-- C6: uncompressFile's destination computation splits the entry name on '/'
without ever producing an empty segment (FieldsFunc, not a naive Split, so
consecutive separators yield nothing); no remaining segment is the "incorrect
path" error; otherwise the first segment is replaced by the caller's target
root and the segments are joined into the local destination path. -/
theorem uncompressDest_segments_spec (root name : GoStr) :
    (∀ p ∈ fieldsSlash name, p ≠ []) ∧
    (fieldsSlash name = [] → uncompressDest root name = .error .incorrectPath) ∧
    (∀ hd tl, fieldsSlash name = hd :: tl →
      uncompressDest root name = .ok (goJoin (root :: tl))) := by
  refine ⟨by simpa [fieldsSlash] using fieldsSlashAux_ne_nil name [], ?_, ?_⟩
  · intro h
    simp [uncompressDest, h]
  · intro hd tl h
    simp [uncompressDest, h]

/-- Witness for C6 at the name "/a//b" (consecutive separators): the fields are
["a", "b"], and with target root "out" the destination is "out/b". -/
theorem uncompressDest_segments_spec_witness :
    uncompressDest "out".toList "/a//b".toList = .ok (goJoin ["out".toList, "b".toList]) :=
  (uncompressDest_segments_spec "out".toList "/a//b".toList).2.2
    "a".toList ["b".toList] (by decide)

/-- C7: directory extraction is idempotent.  For a directory entry whose
destination resolves to `dest`: if `dest` already exists, uncompressFile
returns success with the filesystem unchanged; if it is absent (and stat on it
does not error, see C10) it is created with the entry's recorded permission
bits; if its parent is missing, creation aborts with an error; and when the
entry fails, the consumer loop stops with the filesystem — hence all previously
extracted files — exactly as it was. -/
theorem uncompress_dir_idempotent (root dest : GoStr) (fs : FS) (f : ArchiveFile)
    (hdir : f.isDir = true)
    (hdest : uncompressDest root f.name = .ok dest) :
    ((fs.lookup dest).isSome = true → uncompressFile root fs f = .ok fs) ∧
    (fs.lookup dest = none → dest ∉ fs.denied → fs.hasDir (goDir dest) = true →
      uncompressFile root fs f = .ok ⟨(dest, .dir f.perm) :: fs.entries, fs.denied⟩) ∧
    (fs.lookup dest = none → dest ∉ fs.denied → fs.hasDir (goDir dest) = false →
      uncompressFile root fs f = .error (.mkdirFailed dest)) ∧
    (∀ (o : Option Err) (stream : List ArchiveFile) (terminal : Err),
      uncompressFile root fs f = .error (.mkdirFailed dest) →
      consumerLoop root o fs (f :: stream) terminal = (o, fs)) := by
  have huf : uncompressFile root fs f =
      (if fileExists fs dest then .ok fs else osMkdir fs dest f.perm) := by
    simp [uncompressFile, hdest, hdir]
  refine ⟨?_, ?_, ?_, ?_⟩
  · intro h
    have hex : fileExists fs dest = true := by
      unfold fileExists FS.stat
      by_cases hd : dest ∈ fs.denied
      · simp [hd]
      · cases hl : fs.lookup dest with
        | none => simp [hl] at h
        | some n => simp [hd, hl]
    rw [huf, if_pos hex]
  · intro hl hd hpar
    have hex : fileExists fs dest = false := by
      unfold fileExists FS.stat
      simp [hd, hl]
    rw [huf, if_neg (by simp [hex])]
    unfold osMkdir
    simp [hl, hpar]
  · intro hl hd hpar
    have hex : fileExists fs dest = false := by
      unfold fileExists FS.stat
      simp [hd, hl]
    rw [huf, if_neg (by simp [hex])]
    unfold osMkdir
    simp [hl, hpar]
  · intro o stream terminal herr
    simp only [consumerLoop, herr]

/-- Witness for C7: extracting the directory entry "/root/sub" into target
root "out" (which exists) creates "out/sub" with the recorded bits 0o755. -/
theorem uncompress_dir_idempotent_witness :
    uncompressFile "out".toList ⟨[("out".toList, .dir 0o755)], []⟩
        ⟨"/root/sub".toList, true, 0o755, []⟩ =
      .ok ⟨[("out/sub".toList, .dir 0o755), ("out".toList, .dir 0o755)], []⟩ :=
  (uncompress_dir_idempotent "out".toList "out/sub".toList
      ⟨[("out".toList, .dir 0o755)], []⟩ ⟨"/root/sub".toList, true, 0o755, []⟩
      rfl (by decide)).2.1 (by decide) (by decide) (by decide)

/-- Counterexample to C8: when the put fails, UploadCompressedDirectory returns
the put error before `in.Close()` and before receiving from errorChannel, so
the walker stage's terminal error (here "incorrect path" stands for any stage
error) is neither awaited nor drained and the pipe reader is not closed —
contradicting the claim that the stage error is still drained and the pipe end
closed on put failure. -/
theorem upload_put_failure_counterexample :
    (uploadFinish (some (.putErr 0)) (some .incorrectPath)).drainedStageError = false ∧
    (uploadFinish (some (.putErr 0)) (some .incorrectPath)).closedPipeReader = false ∧
    uploadCompressedDirectory "root".toList "backup.zstd".toList
        (.dir "root".toList 0o755 []) (some (.putErr 0)) =
      ⟨some (.putErr 0), [], false, false⟩ := by decide

/-- C8 amended: when the put fails, UploadCompressedDirectory returns the put
error immediately, without closing the pipe read end and without draining the
walker stage's error channel (the stage's terminal error is leaked); only when
the put succeeds does it close the pipe reader and then await the stage's
error, returning that as the outcome. -/
theorem uploadFinish_amended (putResult stageErr : Option Err) :
    (∀ e, putResult = some e → uploadFinish putResult stageErr = ⟨some e, false, false⟩) ∧
    (putResult = none → uploadFinish putResult stageErr = ⟨stageErr, true, true⟩) := by
  constructor
  · intro e he
    rw [he]
    rfl
  · intro h
    rw [h]
    rfl

/-- Witness for the amended C8 at a concrete put failure and a concrete put
success. -/
theorem uploadFinish_amended_witness :
    uploadFinish (some (.putErr 1)) (some .eof) = ⟨some (.putErr 1), false, false⟩ ∧
    uploadFinish none (some .eof) = ⟨some .eof, true, true⟩ :=
  ⟨(uploadFinish_amended (some (.putErr 1)) (some .eof)).1 (.putErr 1) rfl,
   (uploadFinish_amended none (some .eof)).2 rfl⟩

/-- C9: the cancellation-function slot is initialized to the no-op at
construction; Cancel always leaves the no-op behind (so calling it with no
transfer in flight, after completion, or repeatedly is a safe no-op); starting
a transfer replaces the previous function unconditionally; a transfer that runs
to completion leaves the no-op, and one that returns early leaves the slot as
it was — so from a fresh session the slot always holds the no-op between
operations. -/
theorem cancel_slot_invariant :
    newSessionSlot = CancelSlot.noop ∧
    (∀ s : CancelSlot, cancelOp s = .noop) ∧
    (∀ s : CancelSlot, cancelOp (cancelOp s) = cancelOp s) ∧
    (∀ (id : Nat) (s : CancelSlot), beginTransfer id s = .active id) ∧
    (∀ (id : Nat) (s : CancelSlot), runTransfer id false s = .noop) ∧
    (∀ (id : Nat) (b : Bool), runTransfer id b .noop = .noop) := by
  refine ⟨rfl, fun s => rfl, fun s => rfl, fun id s => rfl, fun id s => rfl, fun id b => ?_⟩
  cases b <;> rfl

/-- C10: Exists is false exactly when stat fails with the not-exist error; on
any other stat failure (for example permission denied, modelled by membership
in `denied`) Exists is true, and uncompressFile therefore treats the
destination directory as already present: it returns success without creating
anything and without reporting the stat failure. -/
theorem exists_stat_error_spec (root dest : GoStr) (fs : FS) (f : ArchiveFile)
    (hdir : f.isDir = true)
    (hdest : uncompressDest root f.name = .ok dest)
    (hden : dest ∈ fs.denied) :
    (∀ (fs2 : FS) (q : GoStr), fileExists fs2 q = false ↔ fs2.stat q = .errNotExist) ∧
    fileExists fs dest = true ∧
    uncompressFile root fs f = .ok fs := by
  have hstat : fs.stat dest = .errOther := by simp [FS.stat, hden]
  have hex : fileExists fs dest = true := by simp [fileExists, hstat]
  refine ⟨?_, hex, ?_⟩
  · intro fs2 q
    unfold fileExists
    cases h : fs2.stat q <;> simp
  · simp [uncompressFile, hdest, hdir, hex]

/-- Witness for C10: the directory entry "/root/sub" aims at "out/sub", which
is absent but stat-denied; extraction succeeds while creating nothing. -/
theorem exists_stat_error_spec_witness :
    fileExists ⟨[], ["out/sub".toList]⟩ "out/sub".toList = true ∧
    uncompressFile "out".toList ⟨[], ["out/sub".toList]⟩
        ⟨"/root/sub".toList, true, 0o755, []⟩ =
      .ok ⟨[], ["out/sub".toList]⟩ :=
  ⟨(exists_stat_error_spec "out".toList "out/sub".toList ⟨[], ["out/sub".toList]⟩
      ⟨"/root/sub".toList, true, 0o755, []⟩ rfl (by decide) (by decide)).2.1,
   (exists_stat_error_spec "out".toList "out/sub".toList ⟨[], ["out/sub".toList]⟩
      ⟨"/root/sub".toList, true, 0o755, []⟩ rfl (by decide) (by decide)).2.2⟩
